import Mathlib

/-!
Verification of the result-processing state machine of
`useServerActionForm` (src/src/index.ts).

The hook's reconciliation `useEffect` is embedded as a pure function from
(configuration, mutable refs, current action state, pending flag) to
(updated refs, ordered list of emitted side effects).  JavaScript object
identity (`===`) between `ServerActionState` instances is modelled by
tagging each result instance with a numeric `id`; two instances are the
same reference exactly when their ids coincide.  JavaScript truthiness of
the `successToast` / `errorToast` options (`boolean | string`) and of
`redirectUrl` (`string | undefined`) is modelled explicitly: `false`,
`""` and `undefined` are falsy, everything else truthy.
-/

/-- `ServerActionState` from src/src/index.ts: outcome flag and message. -/
structure ServerActionState where
  success : Bool
  message : String
deriving DecidableEq

/-- One concrete `ServerActionState` object instance.  `id` models the
JavaScript object identity used by the `state === processedStateRef.current`
comparison; `val` is the instance's contents. -/
structure ResultRef where
  id : Nat
  val : ServerActionState
deriving DecidableEq

/-- Reference identity (`===`) between two result instances. -/
def refEq (a b : ResultRef) : Bool := a.id == b.id

/-- `state === processedStateRef.current` where the ref may hold
`undefined`. -/
def processedEq : Option ResultRef → ResultRef → Bool
  | none, _ => false
  | some p, r => refEq p r

/-- The `boolean | string` type of the `successToast` / `errorToast`
options. -/
inductive ToastOpt where
  | bool (b : Bool)
  | str (s : String)
deriving DecidableEq

/-- JavaScript truthiness of a `boolean | string` value: `false` and the
empty string are falsy (`if (successToast)` / `if (errorToast)`). -/
def ToastOpt.truthy : ToastOpt → Bool
  | .bool b => b
  | .str s => s != ""

/-- `typeof opt === "string" ? opt : state.message`. -/
def ToastOpt.displayMsg : ToastOpt → String → String
  | .str s, _ => s
  | .bool _, m => m

/-- JavaScript truthiness of `redirectUrl : string | undefined`
(`if (redirectUrl)`): `undefined` and `""` are falsy. -/
def strTruthy : Option String → Bool
  | none => false
  | some s => s != ""

/-- The hook options that the reconciliation effect reads.  Callbacks are
modelled by whether one was supplied (`onSuccess?.(state)` /
`onError?.(state)` call the callback only when present). -/
structure HookConfig where
  resetOnSuccess : Bool
  redirectUrl : Option String
  successToast : ToastOpt
  errorToast : ToastOpt
  hasOnSuccess : Bool
  hasOnError : Bool
deriving DecidableEq

/-- The two mutable refs of the hook: `processedStateRef` and
`isRedirectingRef`. -/
structure HookRefs where
  processedState : Option ResultRef
  isRedirecting : Bool
deriving DecidableEq

/-- `useRef<ServerActionState | undefined>(undefined)` and
`useRef(false)`: both refs start cleared. -/
def initialRefs : HookRefs := { processedState := none, isRedirecting := false }

/-- Observable side effects the reconciliation effect can emit, in
program order: `toast.success`, `toast.error`, `router.push`,
`form.reset`, `onSuccess?.(state)`, `onError?.(state)`. -/
inductive Effect where
  | toastSuccess (msg : String)
  | toastError (msg : String)
  | navigate (url : String)
  | formReset
  | callSuccess (r : ResultRef)
  | callError (r : ResultRef)
deriving DecidableEq

/-- The non-redirecting tail of the success branch: `if (resetOnSuccess)
form.reset(); onSuccess?.(state)`. -/
def successTail (cfg : HookConfig) (refs1 : HookRefs) (r : ResultRef)
    (toasts : List Effect) : HookRefs × List Effect :=
  let resets := if cfg.resetOnSuccess then [Effect.formReset] else []
  let cbs := if cfg.hasOnSuccess then [Effect.callSuccess r] else []
  (refs1, toasts ++ resets ++ cbs)

/-- The body of the reconciliation effect past the guard: mark the state
processed first, then branch on `state.success`; on success emit the
success toast when enabled, then either redirect (setting
`isRedirectingRef` and returning early) or reset/invoke `onSuccess`; on
failure emit the error toast when enabled, then invoke `onError`. -/
def processResult (cfg : HookConfig) (refs : HookRefs) (r : ResultRef) :
    HookRefs × List Effect :=
  let refs1 : HookRefs := { refs with processedState := some r }
  if r.val.success then
    let toasts :=
      if cfg.successToast.truthy then
        [Effect.toastSuccess (cfg.successToast.displayMsg r.val.message)]
      else []
    match cfg.redirectUrl with
    | some url =>
        if url != "" then
          ({ refs1 with isRedirecting := true },
            toasts ++ [Effect.navigate url])
        else successTail cfg refs1 r toasts
    | none => successTail cfg refs1 r toasts
  else
    let toasts :=
      if cfg.errorToast.truthy then
        [Effect.toastError (cfg.errorToast.displayMsg r.val.message)]
      else []
    let cbs := if cfg.hasOnError then [Effect.callError r] else []
    (refs1, toasts ++ cbs)

/-- The reconciliation `useEffect` watching `[state, pending, ...]`:
guard (`!state || pending || state === processedStateRef.current ||
isRedirectingRef.current`) and, when it passes, the processing body. -/
def reconcile (cfg : HookConfig) (refs : HookRefs)
    (state : Option ResultRef) (pending : Bool) : HookRefs × List Effect :=
  match state with
  | none => (refs, [])
  | some r =>
      if pending || processedEq refs.processedState r || refs.isRedirecting then
        (refs, [])
      else
        processResult cfg refs r

/-- The `useEffect` watching `[pending]`: when a new action starts
(`pending` is true) clear both refs. -/
def pendingEffect (refs : HookRefs) (pending : Bool) : HookRefs :=
  if pending then { processedState := none, isRedirecting := false } else refs

/-- `onSubmit`'s synchronous ref update: `isRedirectingRef.current =
false` (the processed-state ref is reset by `pendingEffect`). -/
def onSubmitRefs (refs : HookRefs) : HookRefs :=
  { refs with isRedirecting := false }

/-! ### Helper lemmas shared by the claim theorems -/

theorem processResult_fst_processedState (cfg : HookConfig) (refs : HookRefs)
    (r : ResultRef) : (processResult cfg refs r).1.processedState = some r := by
  cases hs : r.val.success <;> cases hu : cfg.redirectUrl <;>
    simp [processResult, successTail, hs, hu]
  split <;> rfl

theorem reconcile_not_guarded (cfg : HookConfig) (refs : HookRefs) (r : ResultRef)
    (h1 : processedEq refs.processedState r = false)
    (h2 : refs.isRedirecting = false) :
    reconcile cfg refs (some r) false = processResult cfg refs r := by
  simp [reconcile, h1, h2]

theorem processResult_success_none_trace (cfg : HookConfig) (refs : HookRefs)
    (r : ResultRef) (hs : r.val.success = true) (hu : cfg.redirectUrl = none) :
    processResult cfg refs r
      = ({ refs with processedState := some r },
         (if cfg.successToast.truthy then
            [Effect.toastSuccess (cfg.successToast.displayMsg r.val.message)]
          else [])
           ++ (if cfg.resetOnSuccess then [Effect.formReset] else [])
           ++ (if cfg.hasOnSuccess then [Effect.callSuccess r] else [])) := by
  simp [processResult, successTail, hs, hu]

theorem processResult_success_redirect_trace (cfg : HookConfig) (refs : HookRefs)
    (r : ResultRef) (u : String) (hs : r.val.success = true)
    (hu : cfg.redirectUrl = some u) (hne : u ≠ "") :
    processResult cfg refs r
      = ({ refs with processedState := some r, isRedirecting := true },
         (if cfg.successToast.truthy then
            [Effect.toastSuccess (cfg.successToast.displayMsg r.val.message)]
          else [])
           ++ [Effect.navigate u]) := by
  simp [processResult, hs, hu, hne]

theorem processResult_success_empty_redirect_trace (cfg : HookConfig)
    (refs : HookRefs) (r : ResultRef) (hs : r.val.success = true)
    (hu : cfg.redirectUrl = some "") :
    processResult cfg refs r
      = ({ refs with processedState := some r },
         (if cfg.successToast.truthy then
            [Effect.toastSuccess (cfg.successToast.displayMsg r.val.message)]
          else [])
           ++ (if cfg.resetOnSuccess then [Effect.formReset] else [])
           ++ (if cfg.hasOnSuccess then [Effect.callSuccess r] else [])) := by
  simp [processResult, successTail, hs, hu]

theorem processResult_failure_trace (cfg : HookConfig) (refs : HookRefs)
    (r : ResultRef) (hs : r.val.success = false) :
    processResult cfg refs r
      = ({ refs with processedState := some r },
         (if cfg.errorToast.truthy then
            [Effect.toastError (cfg.errorToast.displayMsg r.val.message)]
          else [])
           ++ (if cfg.hasOnError then [Effect.callError r] else [])) := by
  simp [processResult, hs]

/-! ### Claim theorems -/

/-- C1.  Idempotence of reconciliation: running the reconciliation routine a
second time in succession with the same pair (currentResult = R,
pending = false) emits no further side effect and leaves the refs unchanged,
because the routine stores R as lastProcessed before executing any side
effect and the guard rejects an already-processed result. -/
theorem reconcile_idempotent (cfg : HookConfig) (refs : HookRefs) (r : ResultRef) :
    reconcile cfg (reconcile cfg refs (some r) false).1 (some r) false
      = ((reconcile cfg refs (some r) false).1, []) := by
  by_cases h1 : processedEq refs.processedState r = true
  · simp [reconcile, h1]
  · by_cases h2 : refs.isRedirecting = true
    · simp [reconcile, h1, h2]
    · rw [Bool.not_eq_true] at h1 h2
      rw [reconcile_not_guarded cfg refs r h1 h2]
      have hp := processResult_fst_processedState cfg refs r
      simp [reconcile, processedEq, hp, refEq]

/-- C5.  Reconciliation guard: the routine performs no side effect and changes
no state whenever no result is present, a submission is pending, the current
result is reference-identical to lastProcessed, or the redirecting flag is
set; in particular while pending = true it never runs. -/
theorem reconcile_guard_silent (cfg : HookConfig) (refs : HookRefs)
    (state : Option ResultRef) (pending : Bool)
    (h : state = none ∨ pending = true
        ∨ (∃ r, state = some r ∧ processedEq refs.processedState r = true)
        ∨ refs.isRedirecting = true) :
    reconcile cfg refs state pending = (refs, []) := by
  rcases h with h | h | ⟨r, hr, hp⟩ | h
  · subst h; rfl
  · subst h; cases state <;> simp [reconcile]
  · subst hr; simp [reconcile, hp]
  · cases state <;> simp [reconcile, h]

theorem reconcile_guard_silent_witness :
    reconcile ⟨true, none, ToastOpt.bool true, ToastOpt.bool true, false, false⟩
        initialRefs (some ⟨0, ⟨true, "ok"⟩⟩) true
      = (initialRefs, []) :=
  reconcile_guard_silent _ _ _ _ (Or.inr (Or.inl rfl))

/-- C6.  Eligibility reset: on the transition into pending = true the
coordinator clears both lastProcessed and the redirecting flag, so after a
result R1 is processed, a subsequent submission resolving to any result
instance R2 (even one deep-equal to R1) is processed again by the full
processing body. -/
theorem new_submission_resets_eligibility (cfg : HookConfig) (refs : HookRefs)
    (r1 r2 : ResultRef) :
    (pendingEffect (reconcile cfg refs (some r1) false).1 true).processedState = none
    ∧ (pendingEffect (reconcile cfg refs (some r1) false).1 true).isRedirecting = false
    ∧ reconcile cfg (pendingEffect (reconcile cfg refs (some r1) false).1 true)
        (some r2) false = processResult cfg initialRefs r2 := by
  refine ⟨rfl, rfl, ?_⟩
  exact reconcile_not_guarded cfg initialRefs r2 rfl rfl

/-- C9.  A supplied initialState is processed on the first evaluation, before
any submit: starting from the initial refs with pending = false, the guard
does not fire and the seed result goes through exactly the same processing
body as a freshly resolved action result (the refs state after a
pending-transition reset). -/
theorem initial_state_processed_like_fresh (cfg : HookConfig) (r : ResultRef) :
    reconcile cfg initialRefs (some r) false = processResult cfg initialRefs r
    ∧ ∀ refs : HookRefs,
        reconcile cfg (pendingEffect refs true) (some r) false
          = reconcile cfg initialRefs (some r) false := by
  exact ⟨reconcile_not_guarded cfg initialRefs r rfl rfl, fun refs => rfl⟩

theorem processResult_failure_no_success_effects (cfg : HookConfig)
    (refs : HookRefs) (r : ResultRef) (hs : r.val.success = false) :
    (∀ m : String, Effect.toastSuccess m ∉ (processResult cfg refs r).2)
    ∧ Effect.formReset ∉ (processResult cfg refs r).2
    ∧ (∀ u : String, Effect.navigate u ∉ (processResult cfg refs r).2)
    ∧ (∀ x : ResultRef, Effect.callSuccess x ∉ (processResult cfg refs r).2) := by
  rw [processResult_failure_trace cfg refs r hs]
  refine ⟨fun m => ?_, ?_, fun u => ?_, fun x => ?_⟩ <;>
    · simp only [List.mem_append, not_or]
      constructor <;> split <;> simp

theorem processResult_success_no_error_effects (cfg : HookConfig)
    (refs : HookRefs) (r : ResultRef) (hs : r.val.success = true) :
    (∀ m : String, Effect.toastError m ∉ (processResult cfg refs r).2)
    ∧ (∀ x : ResultRef, Effect.callError x ∉ (processResult cfg refs r).2) := by
  cases hu : cfg.redirectUrl with
  | none =>
      rw [processResult_success_none_trace cfg refs r hs hu]
      refine ⟨fun m => ?_, fun x => ?_⟩ <;>
        · simp only [List.append_assoc, List.mem_append, not_or]
          refine ⟨?_, ?_, ?_⟩ <;> split <;> simp
  | some u =>
      by_cases hne : u = ""
      · subst hne
        rw [processResult_success_empty_redirect_trace cfg refs r hs hu]
        refine ⟨fun m => ?_, fun x => ?_⟩ <;>
          · simp only [List.append_assoc, List.mem_append, not_or]
            refine ⟨?_, ?_, ?_⟩ <;> split <;> simp
      · rw [processResult_success_redirect_trace cfg refs r u hs hu hne]
        refine ⟨fun m => ?_, fun x => ?_⟩ <;>
          · simp only [List.mem_append, not_or]
            constructor <;> try split
            all_goals simp

/-- C2.  For every success result with no redirect target configured,
resetOnSuccess enabled and an onSuccess callback supplied, a guard-passing
reconciliation resets the form and then invokes the callback with the
result, each exactly once, with the reset strictly before the callback. -/
theorem success_no_redirect_reset_before_callback (cfg : HookConfig)
    (refs : HookRefs) (r : ResultRef)
    (hs : r.val.success = true) (hu : cfg.redirectUrl = none)
    (hreset : cfg.resetOnSuccess = true) (hcb : cfg.hasOnSuccess = true)
    (h1 : processedEq refs.processedState r = false)
    (h2 : refs.isRedirecting = false) :
    ∃ pre : List Effect,
      (reconcile cfg refs (some r) false).2
        = pre ++ [Effect.formReset, Effect.callSuccess r]
      ∧ Effect.formReset ∉ pre
      ∧ (∀ x : ResultRef, Effect.callSuccess x ∉ pre) := by
  rw [reconcile_not_guarded cfg refs r h1 h2,
      processResult_success_none_trace cfg refs r hs hu]
  refine ⟨(if cfg.successToast.truthy then
      [Effect.toastSuccess (cfg.successToast.displayMsg r.val.message)]
    else []), ?_, ?_, fun x => ?_⟩
  · simp [hreset, hcb]
  · split <;> simp
  · split <;> simp

theorem success_no_redirect_reset_before_callback_witness :
    ∃ pre : List Effect,
      (reconcile ⟨true, none, ToastOpt.bool true, ToastOpt.bool true, true, true⟩
          initialRefs (some ⟨0, ⟨true, "ok"⟩⟩) false).2
        = pre ++ [Effect.formReset, Effect.callSuccess ⟨0, ⟨true, "ok"⟩⟩]
      ∧ Effect.formReset ∉ pre
      ∧ (∀ x : ResultRef, Effect.callSuccess x ∉ pre) :=
  success_no_redirect_reset_before_callback _ _ _ rfl rfl rfl rfl rfl rfl

/-- C3.  For every success result with a non-empty redirect target U, a
guard-passing reconciliation navigates to U exactly once, sets the
redirecting flag, and stops: no form reset and no onSuccess callback,
regardless of the resetOnSuccess setting. -/
theorem success_redirect_navigate_once (cfg : HookConfig) (refs : HookRefs)
    (r : ResultRef) (u : String)
    (hs : r.val.success = true) (hu : cfg.redirectUrl = some u) (hne : u ≠ "")
    (h1 : processedEq refs.processedState r = false)
    (h2 : refs.isRedirecting = false) :
    ((reconcile cfg refs (some r) false).2).count (Effect.navigate u) = 1
    ∧ (reconcile cfg refs (some r) false).1.isRedirecting = true
    ∧ Effect.formReset ∉ (reconcile cfg refs (some r) false).2
    ∧ (∀ x : ResultRef,
        Effect.callSuccess x ∉ (reconcile cfg refs (some r) false).2) := by
  rw [reconcile_not_guarded cfg refs r h1 h2,
      processResult_success_redirect_trace cfg refs r u hs hu hne]
  refine ⟨?_, rfl, ?_, fun x => ?_⟩
  · split <;> simp [List.count_append, List.count_cons, List.count_nil]
  · simp only [List.mem_append, not_or]
    constructor <;> try split
    all_goals simp
  · simp only [List.mem_append, not_or]
    constructor <;> try split
    all_goals simp

theorem success_redirect_navigate_once_witness :
    ((reconcile ⟨true, some "/list", ToastOpt.bool true, ToastOpt.bool true,
          true, true⟩ initialRefs (some ⟨0, ⟨true, "Created"⟩⟩) false).2).count
        (Effect.navigate "/list") = 1
    ∧ (reconcile ⟨true, some "/list", ToastOpt.bool true, ToastOpt.bool true,
          true, true⟩ initialRefs
          (some ⟨0, ⟨true, "Created"⟩⟩) false).1.isRedirecting = true
    ∧ Effect.formReset ∉ (reconcile ⟨true, some "/list", ToastOpt.bool true,
          ToastOpt.bool true, true, true⟩ initialRefs
          (some ⟨0, ⟨true, "Created"⟩⟩) false).2
    ∧ (∀ x : ResultRef, Effect.callSuccess x ∉ (reconcile ⟨true, some "/list",
          ToastOpt.bool true, ToastOpt.bool true, true, true⟩ initialRefs
          (some ⟨0, ⟨true, "Created"⟩⟩) false).2) :=
  success_redirect_navigate_once _ _ _ _ rfl rfl (by decide) rfl rfl

/-- C4.  For every failure result with an onError callback supplied, a
guard-passing reconciliation invokes onError with the result exactly once,
never resets the form, never navigates, and displays the error toast when it
is enabled. -/
theorem failure_callback_once_no_reset (cfg : HookConfig) (refs : HookRefs)
    (r : ResultRef)
    (hs : r.val.success = false) (hcb : cfg.hasOnError = true)
    (h1 : processedEq refs.processedState r = false)
    (h2 : refs.isRedirecting = false) :
    ((reconcile cfg refs (some r) false).2).count (Effect.callError r) = 1
    ∧ Effect.formReset ∉ (reconcile cfg refs (some r) false).2
    ∧ (∀ u : String, Effect.navigate u ∉ (reconcile cfg refs (some r) false).2)
    ∧ (cfg.errorToast.truthy = true →
        Effect.toastError (cfg.errorToast.displayMsg r.val.message)
          ∈ (reconcile cfg refs (some r) false).2) := by
  rw [reconcile_not_guarded cfg refs r h1 h2]
  have hrange := processResult_failure_no_success_effects cfg refs r hs
  refine ⟨?_, hrange.2.1, hrange.2.2.1, fun ht => ?_⟩
  · rw [processResult_failure_trace cfg refs r hs]
    simp only [hcb, if_true]
    split <;> simp [List.count_append, List.count_cons, List.count_nil]
  · rw [processResult_failure_trace cfg refs r hs]
    simp [ht]

theorem failure_callback_once_no_reset_witness :
    ((reconcile ⟨true, none, ToastOpt.bool true, ToastOpt.bool true, true, true⟩
          initialRefs (some ⟨1, ⟨false, "Duplicate"⟩⟩) false).2).count
        (Effect.callError ⟨1, ⟨false, "Duplicate"⟩⟩) = 1
    ∧ Effect.formReset ∉ (reconcile ⟨true, none, ToastOpt.bool true,
          ToastOpt.bool true, true, true⟩ initialRefs
          (some ⟨1, ⟨false, "Duplicate"⟩⟩) false).2
    ∧ (∀ u : String, Effect.navigate u ∉ (reconcile ⟨true, none,
          ToastOpt.bool true, ToastOpt.bool true, true, true⟩ initialRefs
          (some ⟨1, ⟨false, "Duplicate"⟩⟩) false).2)
    ∧ ((ToastOpt.bool true).truthy = true →
        Effect.toastError ((ToastOpt.bool true).displayMsg "Duplicate")
          ∈ (reconcile ⟨true, none, ToastOpt.bool true, ToastOpt.bool true,
              true, true⟩ initialRefs
              (some ⟨1, ⟨false, "Duplicate"⟩⟩) false).2) :=
  failure_callback_once_no_reset _ _ _ rfl rfl rfl rfl

/-- C7.  Ordering: for a success result where both the success toast and a
non-empty redirect target apply, the emitted trace is exactly the toast
followed by the navigation — the notification always precedes the redirect
and is never suppressed by it. -/
theorem toast_before_navigate (cfg : HookConfig) (refs : HookRefs)
    (r : ResultRef) (u : String)
    (hs : r.val.success = true) (ht : cfg.successToast.truthy = true)
    (hu : cfg.redirectUrl = some u) (hne : u ≠ "")
    (h1 : processedEq refs.processedState r = false)
    (h2 : refs.isRedirecting = false) :
    (reconcile cfg refs (some r) false).2
      = [Effect.toastSuccess (cfg.successToast.displayMsg r.val.message),
         Effect.navigate u] := by
  rw [reconcile_not_guarded cfg refs r h1 h2,
      processResult_success_redirect_trace cfg refs r u hs hu hne]
  simp [ht]

theorem toast_before_navigate_witness :
    (reconcile ⟨true, some "/list", ToastOpt.bool true, ToastOpt.bool true,
        true, true⟩ initialRefs (some ⟨0, ⟨true, "Created"⟩⟩) false).2
      = [Effect.toastSuccess ((ToastOpt.bool true).displayMsg "Created"),
         Effect.navigate "/list"] :=
  toast_before_navigate _ _ _ _ rfl rfl rfl (by decide) rfl rfl

theorem processResult_success_trace_shape (cfg : HookConfig) (refs : HookRefs)
    (r : ResultRef) (hs : r.val.success = true) :
    ∃ rest : List Effect,
      (processResult cfg refs r).2
        = (if cfg.successToast.truthy then
             [Effect.toastSuccess (cfg.successToast.displayMsg r.val.message)]
           else []) ++ rest
      ∧ ∀ m : String, Effect.toastSuccess m ∉ rest := by
  cases hu : cfg.redirectUrl with
  | none =>
      rw [processResult_success_none_trace cfg refs r hs hu]
      refine ⟨(if cfg.resetOnSuccess then [Effect.formReset] else [])
          ++ (if cfg.hasOnSuccess then [Effect.callSuccess r] else []),
        by simp, fun m => ?_⟩
      simp only [List.mem_append, not_or]
      constructor <;> split <;> simp
  | some u =>
      by_cases hne : u = ""
      · subst hne
        rw [processResult_success_empty_redirect_trace cfg refs r hs hu]
        refine ⟨(if cfg.resetOnSuccess then [Effect.formReset] else [])
            ++ (if cfg.hasOnSuccess then [Effect.callSuccess r] else []),
          by simp, fun m => ?_⟩
        simp only [List.mem_append, not_or]
        constructor <;> split <;> simp
      · rw [processResult_success_redirect_trace cfg refs r u hs hu hne]
        exact ⟨[Effect.navigate u], by simp, fun m => by simp⟩

theorem success_toast_msg_in_trace (cfg : HookConfig) (refs : HookRefs)
    (r : ResultRef) (hs : r.val.success = true)
    (ht : cfg.successToast.truthy = true) :
    Effect.toastSuccess (cfg.successToast.displayMsg r.val.message)
        ∈ (processResult cfg refs r).2
    ∧ ∀ m : String, Effect.toastSuccess m ∈ (processResult cfg refs r).2 →
        m = cfg.successToast.displayMsg r.val.message := by
  obtain ⟨rest, heq, hrest⟩ := processResult_success_trace_shape cfg refs r hs
  rw [heq]
  simp only [ht, if_true]
  constructor
  · simp
  · intro m hm
    rcases List.mem_append.mp hm with hm | hm
    · simpa using hm
    · exact absurd hm (hrest m)

theorem error_toast_msg_in_trace (cfg : HookConfig) (refs : HookRefs)
    (r : ResultRef) (hs : r.val.success = false)
    (ht : cfg.errorToast.truthy = true) :
    Effect.toastError (cfg.errorToast.displayMsg r.val.message)
        ∈ (processResult cfg refs r).2
    ∧ ∀ m : String, Effect.toastError m ∈ (processResult cfg refs r).2 →
        m = cfg.errorToast.displayMsg r.val.message := by
  rw [processResult_failure_trace cfg refs r hs]
  simp only [ht, if_true]
  constructor
  · simp
  · intro m hm
    rcases List.mem_append.mp hm with hm | hm
    · simpa using hm
    · revert hm; split <;> simp

/-- C8.  Notification message selection: for every guard-passing
reconciliation, when the success (respectively error) toast is enabled, the
displayed message is the configured literal string when the option is a
string, and result.message when the option is the boolean true — and no
toast with any other message is displayed. -/
theorem toast_message_selection (cfg : HookConfig) (refs : HookRefs)
    (r : ResultRef)
    (h1 : processedEq refs.processedState r = false)
    (h2 : refs.isRedirecting = false) :
    (∀ s : String, cfg.successToast = ToastOpt.str s → s ≠ "" →
        r.val.success = true →
        Effect.toastSuccess s ∈ (reconcile cfg refs (some r) false).2
        ∧ ∀ m : String,
            Effect.toastSuccess m ∈ (reconcile cfg refs (some r) false).2 →
            m = s)
    ∧ (cfg.successToast = ToastOpt.bool true → r.val.success = true →
        Effect.toastSuccess r.val.message ∈ (reconcile cfg refs (some r) false).2
        ∧ ∀ m : String,
            Effect.toastSuccess m ∈ (reconcile cfg refs (some r) false).2 →
            m = r.val.message)
    ∧ (∀ s : String, cfg.errorToast = ToastOpt.str s → s ≠ "" →
        r.val.success = false →
        Effect.toastError s ∈ (reconcile cfg refs (some r) false).2
        ∧ ∀ m : String,
            Effect.toastError m ∈ (reconcile cfg refs (some r) false).2 →
            m = s)
    ∧ (cfg.errorToast = ToastOpt.bool true → r.val.success = false →
        Effect.toastError r.val.message ∈ (reconcile cfg refs (some r) false).2
        ∧ ∀ m : String,
            Effect.toastError m ∈ (reconcile cfg refs (some r) false).2 →
            m = r.val.message) := by
  rw [reconcile_not_guarded cfg refs r h1 h2]
  refine ⟨fun s hset hne hs => ?_, fun hset hs => ?_,
      fun s hset hne hs => ?_, fun hset hs => ?_⟩
  · have ht : cfg.successToast.truthy = true := by
      rw [hset]; simpa [ToastOpt.truthy] using hne
    have h := success_toast_msg_in_trace cfg refs r hs ht
    rw [hset] at h
    simpa [ToastOpt.displayMsg] using h
  · have ht : cfg.successToast.truthy = true := by rw [hset]; rfl
    have h := success_toast_msg_in_trace cfg refs r hs ht
    rw [hset] at h
    simpa [ToastOpt.displayMsg] using h
  · have ht : cfg.errorToast.truthy = true := by
      rw [hset]; simpa [ToastOpt.truthy] using hne
    have h := error_toast_msg_in_trace cfg refs r hs ht
    rw [hset] at h
    simpa [ToastOpt.displayMsg] using h
  · have ht : cfg.errorToast.truthy = true := by rw [hset]; rfl
    have h := error_toast_msg_in_trace cfg refs r hs ht
    rw [hset] at h
    simpa [ToastOpt.displayMsg] using h

theorem toast_message_selection_witness :
    Effect.toastSuccess "Saved!"
        ∈ (reconcile ⟨true, none, ToastOpt.str "Saved!", ToastOpt.bool true,
            true, true⟩ initialRefs (some ⟨0, ⟨true, "Created"⟩⟩) false).2
    ∧ ∀ m : String,
        Effect.toastSuccess m ∈ (reconcile ⟨true, none, ToastOpt.str "Saved!",
            ToastOpt.bool true, true, true⟩ initialRefs
            (some ⟨0, ⟨true, "Created"⟩⟩) false).2 → m = "Saved!" :=
  (toast_message_selection ⟨true, none, ToastOpt.str "Saved!",
      ToastOpt.bool true, true, true⟩ initialRefs ⟨0, ⟨true, "Created"⟩⟩
      rfl rfl).1 "Saved!" rfl (by decide) rfl

/-- C10.  JavaScript truthiness of the options: an empty-string successToast
or errorToast disables the corresponding notification entirely, and an
empty-string redirectUrl is treated as no redirect target (never navigates;
a success with resetOnSuccess still resets the form). -/
theorem empty_string_options_disable (cfg : HookConfig) (refs : HookRefs)
    (r : ResultRef)
    (h1 : processedEq refs.processedState r = false)
    (h2 : refs.isRedirecting = false) :
    (cfg.successToast = ToastOpt.str "" →
        ∀ m : String,
          Effect.toastSuccess m ∉ (reconcile cfg refs (some r) false).2)
    ∧ (cfg.errorToast = ToastOpt.str "" →
        ∀ m : String,
          Effect.toastError m ∉ (reconcile cfg refs (some r) false).2)
    ∧ (cfg.redirectUrl = some "" →
        (∀ u : String,
          Effect.navigate u ∉ (reconcile cfg refs (some r) false).2)
        ∧ (r.val.success = true → cfg.resetOnSuccess = true →
            Effect.formReset ∈ (reconcile cfg refs (some r) false).2)) := by
  rw [reconcile_not_guarded cfg refs r h1 h2]
  refine ⟨fun hset m => ?_, fun hset m => ?_, fun hu => ⟨fun u => ?_, fun hs hr => ?_⟩⟩
  · cases hs : r.val.success
    · exact (processResult_failure_no_success_effects cfg refs r hs).1 m
    · obtain ⟨rest, heq, hrest⟩ := processResult_success_trace_shape cfg refs r hs
      rw [heq, hset]
      simpa [ToastOpt.truthy] using hrest m
  · cases hs : r.val.success
    · rw [processResult_failure_trace cfg refs r hs, hset]
      have htf : (ToastOpt.str "").truthy = false := by decide
      simp only [htf, Bool.false_eq_true, if_false, List.nil_append]
      split <;> simp
    · exact (processResult_success_no_error_effects cfg refs r hs).1 m
  · cases hs : r.val.success
    · exact (processResult_failure_no_success_effects cfg refs r hs).2.2.1 u
    · rw [processResult_success_empty_redirect_trace cfg refs r hs hu]
      simp only [List.append_assoc, List.mem_append, not_or]
      refine ⟨?_, ?_, ?_⟩ <;> split <;> simp
  · rw [processResult_success_empty_redirect_trace cfg refs r hs hu]
    simp [hr]

theorem empty_string_options_disable_witness :
    Effect.toastSuccess "Created" ∉ (reconcile ⟨true, some "", ToastOpt.str "",
        ToastOpt.str "", true, true⟩ initialRefs
        (some ⟨0, ⟨true, "Created"⟩⟩) false).2 :=
  (empty_string_options_disable ⟨true, some "", ToastOpt.str "",
      ToastOpt.str "", true, true⟩ initialRefs ⟨0, ⟨true, "Created"⟩⟩
      rfl rfl).1 rfl "Created"
